import Mathlib

/-!
Verification development for the NEAR MCP agent event pipeline
(BlockPoller / EventProcessor / EventWatcher and the stop-watching tool).

The definitions below are a shallow embedding, translated from the
TypeScript sources:
  - src/services/block-poller.ts      (BlockPoller)
  - src/services/event-listener.ts    (EventListener, same polling pipeline)
  - src/services/event-processor.ts   (EventProcessor)
  - src/services/event-watcher.ts     (EventWatcher)
  - src/services/subscription-manager.ts (SubscriptionManager)
  - src/tools/stop-watching-tool.ts   (stopWatchingTool)

External collaborators (NEAR RPC, the NearBlocks explorer API, the MCP
sampling session, node-cron) are modelled as explicit environments; a
thrown JavaScript exception from a collaborator is modelled as an
`Option`/`Except` failure value.  JSON.parse is modelled by an executable
JSON parser over the same grammar; a parse failure models the SyntaxError
that the source catches.
-/

/-! ## JSON values (the result of JSON.parse) -/

/-- A parsed JSON value.  Numbers keep their source token uninterpreted
(no claim depends on numeric semantics). -/

inductive Json where
  | null : Json
  | bool (b : Bool) : Json
  | num (raw : String) : Json
  | str (s : String) : Json
  | arr (elems : List Json) : Json
  | obj (fields : List (String × Json)) : Json

/-- Field access on a parsed JSON value, as JavaScript property access:
`undefined` (here `none`) unless the value is an object with the field;
with duplicate keys JSON.parse keeps the last occurrence. -/

def Json.getField : Json → String → Option Json
  | .obj fields, k => ((fields.filter (fun f => f.1 = k)).getLast?).map (fun f => f.2)
  | _, _ => none

/-- JavaScript truthiness of a parsed JSON value: null, false, 0 and the
empty string are falsy. -/

def Json.jsTruthy : Json → Bool
  | .null => false
  | .bool b => b
  | .num raw => !(raw = "0" || raw = "-0" || raw = "0.0")
  | .str s => !s.isEmpty
  | .arr _ => true
  | .obj _ => true

/-! ## A JSON parser modelling JSON.parse

Executable parser for the JSON grammar, fuel-indexed so that every
function is structurally recursive.  `none` models the SyntaxError thrown
by JSON.parse on malformed input. -/

def quoteChar : Char := Char.ofNat 34

def backslashChar : Char := Char.ofNat 92

def lbraceChar : Char := Char.ofNat 123

def rbraceChar : Char := Char.ofNat 125

def isWsChar (c : Char) : Bool := c = ' ' || c = '\n' || c = '\t' || c = '\r'

def skipWs : List Char → List Char
  | [] => []
  | c :: cs => if isWsChar c then skipWs cs else c :: cs

def hexVal (c : Char) : Option Nat :=
  if '0' ≤ c ∧ c ≤ '9' then some (c.toNat - '0'.toNat)
  else if 'a' ≤ c ∧ c ≤ 'f' then some (c.toNat - 'a'.toNat + 10)
  else if 'A' ≤ c ∧ c ≤ 'F' then some (c.toNat - 'A'.toNat + 10)
  else none

def escChar (c : Char) : Option Char :=
  if c = quoteChar then some quoteChar
  else if c = backslashChar then some backslashChar
  else if c = '/' then some '/'
  else if c = 'b' then some (Char.ofNat 8)
  else if c = 'f' then some (Char.ofNat 12)
  else if c = 'n' then some '\n'
  else if c = 'r' then some '\r'
  else if c = 't' then some '\t'
  else none

/-- Characters of a JSON string literal after the opening quote; returns
the decoded characters and the input remaining after the closing quote. -/

def strChars : Nat → List Char → Option (List Char × List Char)
  | 0, _ => none
  | _ + 1, [] => none
  | fuel + 1, c :: rest =>
    if c = quoteChar then some ([], rest)
    else if c = backslashChar then
      match rest with
      | [] => none
      | e :: rest2 =>
        if e = 'u' then
          match rest2 with
          | a :: b :: c2 :: d :: rest3 =>
            match hexVal a, hexVal b, hexVal c2, hexVal d with
            | some ha, some hb, some hc, some hd =>
              match strChars fuel rest3 with
              | some (tail, rem) =>
                some (Char.ofNat (((ha * 16 + hb) * 16 + hc) * 16 + hd) :: tail, rem)
              | none => none
            | _, _, _, _ => none
          | _ => none
        else
          match escChar e with
          | some ec =>
            match strChars fuel rest2 with
            | some (tail, rem) => some (ec :: tail, rem)
            | none => none
          | none => none
    else if c.toNat < 32 then none
    else
      match strChars fuel rest with
      | some (tail, rem) => some (c :: tail, rem)
      | none => none

def parseStrBody (cs : List Char) : Option (List Char × List Char) :=
  strChars (cs.length + 1) cs

def isDigitChar (c : Char) : Bool := '0' ≤ c ∧ c ≤ '9'

/-- Longest leading run of decimal digits. -/

def chompDigits : List Char → List Char × List Char
  | [] => ([], [])
  | c :: cs =>
    if isDigitChar c then
      let (ds, rest) := chompDigits cs
      (c :: ds, rest)
    else ([], c :: cs)

/-- Number token per the JSON grammar:
minus? int frac? exp?, with int = 0 | [1-9][0-9]*.
Returns the token characters and the remaining input. -/

def checkNum (cs : List Char) : Option (List Char × List Char) :=
  let (sign, cs1) :=
    match cs with
    | c :: rest => if c = '-' then ([c], rest) else ([], cs)
    | [] => ([], [])
  match cs1 with
  | [] => none
  | c :: rest =>
    if !isDigitChar c then none
    else
      let (intPart, cs2) :=
        if c = '0' then ([c], rest)
        else
          let (ds, r) := chompDigits rest
          (c :: ds, r)
      let (fracPart, cs3) :=
        match cs2 with
        | p :: r2 =>
          if p = '.' then
            match chompDigits r2 with
            | ([], _) => ([], cs2)
            | (ds, r3) => (p :: ds, r3)
          else ([], cs2)
        | [] => ([], [])
      let fracOk :=
        match cs2 with
        | p :: _ => !(p = '.') || !fracPart.isEmpty
        | [] => true
      let (expPart, cs4) :=
        match cs3 with
        | e :: r2 =>
          if e = 'e' ∨ e = 'E' then
            let (es, r3) :=
              match r2 with
              | s :: r4 => if s = '+' ∨ s = '-' then ([s], r4) else ([], r2)
              | [] => ([], [])
            match chompDigits r3 with
            | ([], _) => ([], cs3)
            | (ds, r4) => (e :: es ++ ds, r4)
          else ([], cs3)
        | [] => ([], [])
      let expOk :=
        match cs3 with
        | e :: _ => !(e = 'e' ∨ e = 'E') || !expPart.isEmpty
        | [] => true
      if fracOk && expOk then some (sign ++ intPart ++ fracPart ++ expPart, cs4)
      else none

def expectLit : List Char → List Char → Option (List Char)
  | [], rest => some rest
  | l :: ls, c :: rest => if c = l then expectLit ls rest else none
  | _ :: _, [] => none

mutual

/-- One JSON value; consumes leading whitespace. -/
def parseVal : Nat → List Char → Option (Json × List Char)
  | 0, _ => none
  | fuel + 1, cs =>
    match skipWs cs with
    | [] => none
    | c :: rest =>
      if c = lbraceChar then
        match skipWs rest with
        | c2 :: rest2 =>
          if c2 = rbraceChar then some (.obj [], rest2)
          else
            match parseObjFields fuel (c2 :: rest2) with
            | some (fs, rem) => some (.obj fs, rem)
            | none => none
        | [] => none
      else if c = '[' then
        match skipWs rest with
        | c2 :: rest2 =>
          if c2 = ']' then some (.arr [], rest2)
          else
            match parseArrElems fuel (c2 :: rest2) with
            | some (vs, rem) => some (.arr vs, rem)
            | none => none
        | [] => none
      else if c = quoteChar then
        match parseStrBody rest with
        | some (body, rem) => some (.str (String.mk body), rem)
        | none => none
      else if c = 't' then
        match expectLit ['r', 'u', 'e'] rest with
        | some rem => some (.bool true, rem)
        | none => none
      else if c = 'f' then
        match expectLit ['a', 'l', 's', 'e'] rest with
        | some rem => some (.bool false, rem)
        | none => none
      else if c = 'n' then
        match expectLit ['u', 'l', 'l'] rest with
        | some rem => some (.null, rem)
        | none => none
      else
        match checkNum (c :: rest) with
        | some (tok, rem) => some (.num (String.mk tok), rem)
        | none => none

/-- Array elements from the position where a value is expected. -/
def parseArrElems : Nat → List Char → Option (List Json × List Char)
  | 0, _ => none
  | fuel + 1, cs =>
    match parseVal fuel cs with
    | none => none
    | some (v, rest) =>
      match skipWs rest with
      | c :: rest2 =>
        if c = ']' then some ([v], rest2)
        else if c = ',' then
          match parseArrElems fuel rest2 with
          | some (vs, rem) => some (v :: vs, rem)
          | none => none
        else none
      | [] => none

/-- Object members from the position where a key is expected. -/
def parseObjFields : Nat → List Char → Option (List (String × Json) × List Char)
  | 0, _ => none
  | fuel + 1, cs =>
    match skipWs cs with
    | c :: rest =>
      if c = quoteChar then
        match parseStrBody rest with
        | some (keyBody, rest2) =>
          match skipWs rest2 with
          | c2 :: rest3 =>
            if c2 = ':' then
              match parseVal fuel rest3 with
              | some (v, rest4) =>
                match skipWs rest4 with
                | c3 :: rest5 =>
                  if c3 = rbraceChar then some ([(String.mk keyBody, v)], rest5)
                  else if c3 = ',' then
                    match parseObjFields fuel rest5 with
                    | some (fs, rem) => some ((String.mk keyBody, v) :: fs, rem)
                    | none => none
                  else none
                | [] => none
              | none => none
            else none
          | [] => none
        | none => none
      else none
    | [] => none

end

/-- JSON.parse: a complete JSON text, allowing surrounding whitespace;
`none` models the thrown SyntaxError. -/

def Json.parse (s : String) : Option Json :=
  match parseVal (2 * s.length + 8) s.data with
  | some (v, rest) => if skipWs rest = [] then some v else none
  | none => none

/-! ## AgentEvent and BlockPoller.parseEventLog -/

/-- One detected on-chain event (src/types.ts AgentEvent).
`requestId` is read from `data[0].request_id` without validation, so it is
`undefined` (here `none`) when the field is absent. -/

structure AgentEvent where
  eventType : String
  requestId : Option Json
  payload : Json
  sender : String
  timestamp : Nat

/-- JavaScript property access `v.request_id` as evaluated at
block-poller.ts:411: reading a property of null throws a TypeError
(`.error`); on every other JSON value (objects, and auto-boxed
primitives/arrays) it yields the field, or undefined (`none`) when
absent. -/
def Json.getFieldOrThrow : Json → String → Except Unit (Option Json)
  | .null, _ => .error ()
  | v, k => .ok (v.getField k)

/-- BlockPoller.parseEventLog (block-poller.ts lines 394-422; identical in
event-listener.ts): a log line yields an event iff it starts with the
sentinel "EVENT_JSON:", the rest parses as JSON, the `event` field equals
the subscription's eventName, and `data` is a non-empty array.  Both a
JSON SyntaxError and the TypeError thrown when `data[0]` is null (reading
`null.request_id`) are caught by the surrounding try and yield null
(`none`).  The timestamp is Date.now(), passed here as `now`. -/

def parseEventLog (log : String) (eventName : String) (signerId : String) (now : Nat) :
    Option AgentEvent :=
  -- log.startsWith("EVENT_JSON:") and log.slice("EVENT_JSON:".length),
  -- expressed on the character list so the definition evaluates by rfl
  if log.data.take 11 = ("EVENT_JSON:").data then
    match Json.parse (String.mk (log.data.drop 11)) with
    | none => none
    | some eventData =>
      match eventData.getField "event", eventData.getField "data" with
      | some (.str ev), some (.arr (d0 :: _)) =>
        if ev = eventName then
          match d0.getFieldOrThrow "request_id" with
          | .error _ => none
          | .ok rid =>
            some { eventType := ev
                   requestId := rid
                   payload := d0
                   sender := signerId
                   timestamp := now }
        else none
      | _, _ => none
  else none

/-! ## BlockPoller: per-subscription polling state and the chain environment -/

/-- EventSubscription as the poller sees it (id, contract and event). -/

structure Subscription where
  id : String
  contractId : String
  eventName : String

/-- BlockProcessingState (src/types.ts): the per-subscription cursor.
The JavaScript Set keeps insertion order, modelled by a list. -/

structure PState where
  lastBlockHeight : Nat
  isProcessing : Bool
  processedTransactionIds : List String

/-- The state created by BlockPoller.initializeSubscription
(block-poller.ts lines 51-62): cursor 0, flag down, empty dedup set. -/

def freshState : PState :=
  { lastBlockHeight := 0, isProcessing := false, processedTransactionIds := [] }

/-- A receipt as extracted from a chunk (the fields the poller reads). -/

structure Receipt where
  receiver_id : String
  receipt_id : String
  predecessor_id : String

/-- A block header plus its chunk hashes. -/

structure BlockInfo where
  height : Nat
  chunks : List String

/-- One outbound call to an external collaborator, recorded as a trace so
that theorems can state "performs no chain calls" and "scanned at most
once". -/

inductive ChainCall where
  | viewFinal : ChainCall
  | viewBlock (height : Nat) : ChainCall
  | viewChunk (hash : String) : ChainCall
  | nearblocks (receiptId : String) : ChainCall
  | txStatus (hash : String) : ChainCall

/-- The external chain world: NEAR RPC plus the NearBlocks explorer.
`none` models a rejected promise (a thrown error at the call site);
`lookupTx` collapses HTTP failure, an empty result list and a missing
originated_from_transaction_hash into `none`.  `now` models Date.now(). -/

structure Chain where
  finalHeight : Option Nat
  blockAt : Nat → Option BlockInfo
  chunkAt : String → Option (List Receipt)
  lookupTx : String → Option String
  txLogs : String → Option (List (List String))
  now : Nat

/-- Occurrences of `.txStatus h` in a trace. -/

def countTx (h : String) : List ChainCall → Nat
  | [] => 0
  | .txStatus g :: t => (if g = h then 1 else 0) + countTx h t
  | _ :: t => countTx h t

/-- BlockPoller.extractEventsFromReceipt (block-poller.ts lines 326-389):
resolve the receipt to its originating transaction hash via NearBlocks,
skip if falsy or already seen, otherwise mark it seen (with the
size-capped eviction), fetch the transaction status and parse every log
line.  Every error is caught, so the function is total; note that the
hash stays marked even if the status fetch fails. -/

def extractEventsFromReceipt (c : Chain) (receipt : Receipt) (sub : Subscription)
    (st : PState) : List AgentEvent × PState × List ChainCall :=
  match c.lookupTx receipt.receipt_id with
  | none => ([], st, [.nearblocks receipt.receipt_id])
  | some txHash =>
    if txHash = "" then ([], st, [.nearblocks receipt.receipt_id])
    else if txHash ∈ st.processedTransactionIds then ([], st, [.nearblocks receipt.receipt_id])
    else
      let ids0 := st.processedTransactionIds ++ [txHash]
      -- clean up old transaction ids: if size > 10000 keep the last 5000
      let ids := if ids0.length > 10000 then ids0.drop (ids0.length - 5000) else ids0
      let st1 := { st with processedTransactionIds := ids }
      match c.txLogs txHash with
      | none => ([], st1, [.nearblocks receipt.receipt_id, .txStatus txHash])
      | some outcomes =>
        ((outcomes.map (fun logs =>
            logs.filterMap (fun log =>
              parseEventLog log sub.eventName receipt.predecessor_id c.now))).flatten,
         st1, [.nearblocks receipt.receipt_id, .txStatus txHash])

/-- BlockPoller.processReceipts (lines 290-321): receipts of one block are
processed sequentially, each found event is emitted individually and
counted. -/

def processReceipts (c : Chain) (receipts : List Receipt) (sub : Subscription)
    (st : PState) : Nat × PState × List ChainCall :=
  match receipts with
  | [] => (0, st, [])
  | r :: rest =>
    let out := extractEventsFromReceipt c r sub st
    let next := processReceipts c rest sub out.2.1
    (out.1.length + next.1, next.2.1, out.2.2 ++ next.2.2)

/-- BlockPoller.getRelevantReceipts (lines 238-285): re-fetch the block,
fetch each chunk (a failing chunk is skipped), keep receipts addressed to
the contract.  A failing block fetch yields the empty list. -/

def getRelevantReceipts (c : Chain) (blockHeight : Nat) (contractId : String) :
    List Receipt × List ChainCall :=
  match c.blockAt blockHeight with
  | none => ([], [.viewBlock blockHeight])
  | some b =>
    let folded := b.chunks.foldl
      (fun (acc : List Receipt × List ChainCall) ch =>
        match c.chunkAt ch with
        | none => (acc.1, acc.2 ++ [.viewChunk ch])
        | some receipts =>
          (acc.1 ++ receipts.filter (fun r => r.receiver_id = contractId),
           acc.2 ++ [.viewChunk ch]))
      ([], [])
    (folded.1, .viewBlock blockHeight :: folded.2)

/-- BlockPoller.processBlock (lines 167-212): fetch the block, collect the
relevant receipts, process them.  Any error is caught and reported as a
block error with zero events. -/

def processBlock (c : Chain) (blockHeight : Nat) (sub : Subscription) (st : PState) :
    Nat × PState × List ChainCall :=
  match c.blockAt blockHeight with
  | none => (0, st, [.viewBlock blockHeight])
  | some _ =>
    let rec_ := getRelevantReceipts c blockHeight sub.contractId
    if rec_.1.isEmpty then (0, st, .viewBlock blockHeight :: rec_.2)
    else
      let pr := processReceipts c rec_.1 sub st
      (pr.1, pr.2.1, .viewBlock blockHeight :: rec_.2 ++ pr.2.2)

/-- One batch's heights (issued via Promise.all and awaited together in
the source; the check-and-mark in the dedup set is synchronous, so the
sequential composition is a faithful interleaving). -/

def processHeights (c : Chain) (sub : Subscription) (heights : List Nat) (st : PState) :
    Nat × PState × List ChainCall :=
  match heights with
  | [] => (0, st, [])
  | h :: rest =>
    let out := processBlock c h sub st
    let next := processHeights c sub rest out.2.1
    (out.1 + next.1, next.2.1, out.2.2 ++ next.2.2)

/-- BlockPoller.BATCH_SIZE (line 35). -/

def BATCH_SIZE : Nat := 5

/-- The batch loop of pollForEvents (lines 113-144), fuel-indexed for
structural recursion; after each batch the cursor advances to the batch's
last height.  Returns (blocksProcessed, eventsFound, state, trace). -/

def runBatchesAux (c : Chain) (sub : Subscription) :
    Nat → Nat → Nat → PState → Nat × Nat × PState × List ChainCall
  | 0, _, _, st => (0, 0, st, [])
  | fuel + 1, blockHeight, currentHeight, st =>
    if blockHeight ≤ currentHeight then
      let endBatch := min (blockHeight + BATCH_SIZE - 1) currentHeight
      let batch := processHeights c sub (List.range' blockHeight (endBatch + 1 - blockHeight)) st
      let st2 := { batch.2.1 with lastBlockHeight := endBatch }
      let next := runBatchesAux c sub fuel (blockHeight + BATCH_SIZE) currentHeight st2
      ((endBatch - blockHeight + 1) + next.1, batch.1 + next.2.1, next.2.2.1,
       batch.2.2 ++ next.2.2.2)
    else (0, 0, st, [])

def runBatches (c : Chain) (sub : Subscription) (blockHeight currentHeight : Nat)
    (st : PState) : Nat × Nat × PState × List ChainCall :=
  runBatchesAux c sub (currentHeight + 1 - blockHeight) blockHeight currentHeight st

/-- BlockPoller.getCurrentBlock (lines 217-233): fetch the final block
and, on the very first run (cursor 0), anchor the cursor to the current
height minus one. -/

def getCurrentBlock (c : Chain) (st : PState) : Option Nat × PState × List ChainCall :=
  match c.finalHeight with
  | none => (none, st, [.viewFinal])
  | some h =>
    if st.lastBlockHeight = 0 then
      (some h, { st with lastBlockHeight := h - 1 }, [.viewFinal])
    else (some h, st, [.viewFinal])

/-- Outcome of one pollForEvents call: the returned (or thrown) value, the
subscription's state afterwards, and the chain calls performed. -/

structure PollOutcome where
  result : Except String (Nat × Nat)
  state : PState
  trace : List ChainCall

/-- BlockPoller.pollForEvents (lines 67-162).  The account-not-set and
state-not-initialized preconditions (lines 71-80) throw before touching
any state; the embedding covers calls with those preconditions satisfied,
per subscription.  If isProcessing is already set the call returns zero
counts immediately; otherwise the flag is raised, the range
[lastBlockHeight+1, currentHeight] is walked in batches, and the flag is
always cleared on the way out (the finally block). -/

def pollForEvents (c : Chain) (sub : Subscription) (st : PState) : PollOutcome :=
  if st.isProcessing then { result := .ok (0, 0), state := st, trace := [] }
  else
    let st0 := { st with isProcessing := true }
    let cur := getCurrentBlock c st0
    match cur.1 with
    | none =>
      { result := .error "getCurrentBlock failed"
        state := { cur.2.1 with isProcessing := false }, trace := cur.2.2 }
    | some currentHeight =>
      let st1 := cur.2.1
      let startHeight := st1.lastBlockHeight + 1
      if currentHeight < startHeight then
        { result := .ok (0, 0), state := { st1 with isProcessing := false }, trace := cur.2.2 }
      else
        let rb := runBatches c sub startHeight currentHeight st1
        { result := .ok (rb.1, rb.2.1)
          state := { rb.2.2.1 with isProcessing := false }
          trace := cur.2.2 ++ rb.2.2.2 }

/-- A chain for scratch checks: height 10, empty blocks. -/

def chainA : Chain :=
  { finalHeight := some 10
    blockAt := fun h => if h = 10 then some { height := 10, chunks := [] } else none
    chunkAt := fun _ => none
    lookupTx := fun _ => none
    txLogs := fun _ => none
    now := 0 }

def subA : Subscription := { id := "c:X", contractId := "c", eventName := "X" }

def stAt10 : PState :=
  { lastBlockHeight := 10, isProcessing := false, processedTransactionIds := [] }

/-! ## EventProcessor (event-processor.ts) -/

/-- The processor's running counters (event-processor.ts lines 26-31). -/

structure ProcStats where
  totalProcessed : Nat
  successful : Nat
  failed : Nat
  totalProcessingTime : Nat

/-- EventProcessor.updateStats (lines 252-264): bump the totals and one of
successful/failed; called exactly once from each branch of processEvent. -/

def updateStats (s : ProcStats) (success : Bool) (processingTime : Nat) : ProcStats :=
  let s1 := { s with totalProcessed := s.totalProcessed + 1
                     totalProcessingTime := s.totalProcessingTime + processingTime }
  if success then { s1 with successful := s1.successful + 1 }
  else { s1 with failed := s1.failed + 1 }

/-- The two remote collaborators of one processEvent call plus the wall
clock: the MCP sampling promise (raced against the 2-minute timeout: a
timeout is simply one way for the race to reject) and the
account.functionCall promise.  `.error` models a rejected promise. -/

structure SamplingEnv where
  sampleOutcome : Except String Json
  callOutcome : Except String String
  elapsedMs : Nat

/-- EventProcessor.requestMCPSampling (lines 113-159): any rejection
(timeout included) is re-thrown wrapped in "MCP sampling failed: ...". -/

def requestMCPSampling (env : SamplingEnv) : Except String Json :=
  match env.sampleOutcome with
  | .ok r => .ok r
  | .error e => .error ("MCP sampling failed: " ++ e)

/-- EventProcessor.sendBlockchainResponse (lines 210-247): throws if the
account is not set; a functionCall rejection is re-thrown wrapped in
"Blockchain response failed: ...". -/

def sendBlockchainResponse (env : SamplingEnv) (accountSet : Bool) : Except String String :=
  if !accountSet then .error "NEAR account not set. Call setAccount() first."
  else
    match env.callOutcome with
    | .ok tx => .ok tx
    | .error e => .error ("Blockchain response failed: " ++ e)

/-- ProcessingResult (src/types.ts): success / response or error /
requestId / originating subscription and event / elapsed time. -/

structure ProcessingResult where
  success : Bool
  response : Option Json
  error : Option String
  requestId : Option Json
  subscription : Subscription
  event : AgentEvent
  processingTime : Nat

/-- The `mcpResponse.content?.text` access. -/

def mcpText (resp : Json) : Option Json :=
  (resp.getField "content").bind (fun c => c.getField "text")

/-- EventProcessor.processEvent (event-processor.ts lines 43-108): request
sampling, require a truthy response text, submit the blockchain response;
every exception from any stage is caught and turned into a failure
ProcessingResult, and updateStats runs exactly once on every path.  The
function is total: it never propagates an exception to its caller. -/

def processEvent (env : SamplingEnv) (accountSet : Bool) (event : AgentEvent)
    (subscription : Subscription) (stats : ProcStats) : ProcessingResult × ProcStats :=
  let fail := fun (msg : String) =>
    ({ success := false, response := none, error := some msg, requestId := event.requestId,
       subscription := subscription, event := event, processingTime := env.elapsedMs },
     updateStats stats false env.elapsedMs)
  match requestMCPSampling env with
  | .error e => fail e
  | .ok resp =>
    let text := mcpText resp
    let textTruthy := resp.jsTruthy &&
      (match text with
       | some t => t.jsTruthy
       | none => false)
    if !textTruthy then fail "No valid response from MCP client"
    else
      match sendBlockchainResponse env accountSet with
      | .error e => fail e
      | .ok _tx =>
        ({ success := true, response := text, error := none, requestId := event.requestId,
           subscription := subscription, event := event, processingTime := env.elapsedMs },
         updateStats stats true env.elapsedMs)

/-! ## SubscriptionManager and EventWatcher (subscription-manager.ts, event-watcher.ts) -/

/-- A registry entry (subscription-manager.ts EventSubscription), with the
nullable cron-job handle modelled as `hasCron`. -/

structure SubRec where
  id : String
  contractId : String
  eventName : String
  responseMethodName : String
  isActive : Bool
  hasCron : Bool
  createdAt : Nat
  lastEventAt : Option Nat

/-- SubscriptionManager.generateSubscriptionId. -/

def subKey (contractId eventName : String) : String := contractId ++ ":" ++ eventName

/-- Map lookup on the registry (entries are stored under their id). -/

def getSubscription (regs : List SubRec) (contractId eventName : String) : Option SubRec :=
  regs.find? (fun r => r.id == subKey contractId eventName)

/-- Whether cronJob.stop()/destroy() throws for a given subscription id
(node-cron is an external collaborator). -/

structure CronEnv where
  stopFails : String → Bool

/-- SubscriptionManager.unsubscribe (subscription-manager.ts lines
82-103): absent key returns false; otherwise stop and destroy the cron
job (which may throw, before the map delete) and delete the entry. -/

def unsubscribe (env : CronEnv) (regs : List SubRec) (contractId eventName : String) :
    Except String (Bool × List SubRec) :=
  match getSubscription regs contractId eventName with
  | none => .ok (false, regs)
  | some sub =>
    if sub.hasCron && env.stopFails sub.id then .error "cron stop failed"
    else .ok (true, regs.filter (fun r => r.id != subKey contractId eventName))

/-- The watcher-owned state the stop operations touch: the subscription
registry and the EventListener's per-subscription processing states
(tracked by subscription id). -/

structure WatcherState where
  registry : List SubRec
  listenerStates : List String

/-- EventWatcher.stopWatching (event-watcher.ts lines 196-237): absent
subscription returns false; otherwise stopListening (a pure map delete)
then unsubscribe, with any thrown error caught, reported as a
watcher:error event, and converted to `false`. -/

def stopWatching (env : CronEnv) (ws : WatcherState) (contractId eventName : String) :
    Bool × WatcherState :=
  match getSubscription ws.registry contractId eventName with
  | none => (false, ws)
  | some sub =>
    let ls := ws.listenerStates.erase sub.id
    match unsubscribe env ws.registry contractId eventName with
    | .error _ => (false, { ws with listenerStates := ls })
    | .ok (success, regs) => (success, { registry := regs, listenerStates := ls })

/-- SubscriptionManager.getActiveSubscriptions (lines 127-131). -/

def getActiveSubscriptions (regs : List SubRec) : List SubRec :=
  regs.filter (fun r => r.isActive)

/-- EventWatcher.stopAllWatching (lines 242-262): snapshot the active
subscriptions, then stop each in turn; a per-subscription failure must
not prevent attempting the rest (stopWatching is total here, so the
surrounding try/catch is a no-op). -/

def stopAllWatching (env : CronEnv) (ws : WatcherState) : WatcherState :=
  (getActiveSubscriptions ws.registry).foldl
    (fun acc sub => (stopWatching env acc sub.contractId sub.eventName).2) ws

/-- The three dedent replies of stopWatchingTool.execute
(stop-watching-tool.ts lines 27-58). -/

inductive StopToolReply where
  | stoppedOk : StopToolReply
  | notFound : StopToolReply
  | failedError : StopToolReply

deriving DecidableEq

/-- stopWatchingTool.execute (lines 17-60): success maps to the stopped
reply, false to the no-active-subscription reply; the catch branch with
the distinct failure reply would require eventWatcher.stopWatching to
throw, which it never does (it catches internally and returns false). -/

def stopWatchingToolExecute (env : CronEnv) (ws : WatcherState)
    (contractId eventName : String) : StopToolReply × WatcherState :=
  let out := stopWatching env ws contractId eventName
  (if out.1 then .stoppedOk else .notFound, out.2)

/-! ## The EventWatcher event:found handler (event-watcher.ts lines 374-426) -/

/-- The watcher's aggregate counters (event-watcher.ts lines 64-70). -/

structure WatcherStats where
  totalEventsDetected : Nat
  totalEventsProcessed : Nat
  totalEventsSuccessful : Nat
  totalEventsFailed : Nat
  totalProcessingTime : Nat

/-- EventWatcher.updateProcessingStats (lines 454-466). -/

def updateProcessingStats (s : WatcherStats) (success : Bool) (processingTime : Nat) :
    WatcherStats :=
  let s1 := { s with totalEventsProcessed := s.totalEventsProcessed + 1
                     totalProcessingTime := s.totalProcessingTime + processingTime }
  if success then { s1 with totalEventsSuccessful := s1.totalEventsSuccessful + 1 }
  else { s1 with totalEventsFailed := s1.totalEventsFailed + 1 }

/-- Observable actions of one event:found handler run, in order. -/

inductive WatcherAction where
  | emitDetected : WatcherAction
  | callProcessEvent : WatcherAction
  | emitProcessed : WatcherAction
  | emitFailed : WatcherAction
  | emitStatsUpdated : WatcherAction

deriving DecidableEq

/-- The event:found handler installed by setupEventHandlers (lines
374-426): bump the detected counter, stamp lastEventAt, emit
event:detected; only when authManager.getAccount() is non-null invoke
processEvent (whose outcome, or unexpected throw, is `procOutcome`) and
update the processing counters and emit event:processed / event:failed;
finally emit stats:updated. -/

def handleEventFound (account : Option Unit) (procOutcome : Except String ProcessingResult)
    (s : WatcherStats) (sub : SubRec) (now : Nat) :
    WatcherStats × SubRec × List WatcherAction :=
  let s1 := { s with totalEventsDetected := s.totalEventsDetected + 1 }
  let sub1 := { sub with lastEventAt := some now }
  match account with
  | none => (s1, sub1, [.emitDetected, .emitStatsUpdated])
  | some _ =>
    match procOutcome with
    | .ok result =>
      let s2 := updateProcessingStats s1 result.success result.processingTime
      (s2, sub1,
       [.emitDetected, .callProcessEvent,
        (if result.success then .emitProcessed else .emitFailed), .emitStatsUpdated])
    | .error _ =>
      let s2 := { s1 with totalEventsFailed := s1.totalEventsFailed + 1 }
      (s2, sub1, [.emitDetected, .callProcessEvent, .emitFailed, .emitStatsUpdated])

def busyState : PState :=
  { lastBlockHeight := 4, isProcessing := true, processedTransactionIds := ["t1"] }

def logNoRid : String := "EVENT_JSON:\x7b\"event\":\"X\",\"data\":[\x7b\"foo\":1\x7d]\x7d"

def lineNull : String := "EVENT_JSON:\x7b\"event\":\"X\",\"data\":[null]\x7d"

def eventLineX : String := "EVENT_JSON:\x7b\"event\":\"X\",\"data\":[\x7b\"request_id\":\"r1\"\x7d]\x7d"

def lineY : String := "EVENT_JSON:\x7b\"event\":\"Y\",\"data\":[\x7b\"request_id\":\"r1\"\x7d]\x7d"

def lineBad : String := "EVENT_JSON:\x7bgarbage"

def envOkS : SamplingEnv :=
  { sampleOutcome := .ok (.obj [("content", .obj [("text", .str "hi")])])
    callOutcome := .ok "tx", elapsedMs := 5 }

def stats0 : ProcStats := { totalProcessed := 0, successful := 0, failed := 0,
                            totalProcessingTime := 0 }

def evW : AgentEvent := { eventType := "X", requestId := some (.str "r"), payload := .null,
                          sender := "s", timestamp := 0 }

/-! ## C7: the stop-watching tool's replies -/

def subX : SubRec :=
  { id := "c:X", contractId := "c", eventName := "X", responseMethodName := "m",
    isActive := true, hasCron := true, createdAt := 0, lastEventAt := none }

def wsOne : WatcherState := { registry := [subX], listenerStates := ["c:X"] }

def wsEmpty : WatcherState := { registry := [], listenerStates := [] }

def cronFailEnv : CronEnv := { stopFails := fun _ => true }

def cronOkEnv : CronEnv := { stopFails := fun _ => false }

def pausedP : SubRec :=
  { id := "b:Y", contractId := "b", eventName := "Y", responseMethodName := "m",
    isActive := false, hasCron := true, createdAt := 0, lastEventAt := none }

def wsMix : WatcherState := { registry := [subX, pausedP], listenerStates := ["c:X", "b:Y"] }

/-! ## C5: transaction-hash deduplication -/

/-- Whether a hash is currently charged to the dedup set (0 or 1). -/

def chargeTx (h : String) (ids : List String) : Nat := if h ∈ ids then 1 else 0

def rSame1 : Receipt := { receiver_id := "c", receipt_id := "q1", predecessor_id := "p" }

def rSame2 : Receipt := { receiver_id := "c", receipt_id := "q2", predecessor_id := "p" }

def chainDup : Chain :=
  { finalHeight := none, blockAt := fun _ => none, chunkAt := fun _ => none,
    lookupTx := fun _ => some "h", txLogs := fun _ => some [], now := 0 }

/-! ### C5 counterexample: the eviction policy re-scans an old hash

After 10000 further distinct transactions the dedup set crosses its
high-water mark (10000) and is truncated to its most recent 5000 entries,
evicting the oldest hash; a later receipt resolving to that hash is
scanned a second time. -/

def tstr (i : Nat) : String := String.mk (List.replicate i 't')

def midReceipt (i : Nat) : Receipt :=
  { receiver_id := "c", receipt_id := tstr i, predecessor_id := "p" }

def recA : Receipt := { receiver_id := "c", receipt_id := "A", predecessor_id := "p" }

def recB : Receipt := { receiver_id := "c", receipt_id := "B", predecessor_id := "p" }

/-- Receipts "A" and "B" both resolve to transaction "h"; every other
receipt resolves to a transaction named after itself; every transaction
has no receipt outcomes (no log lines), so the only observable of a scan
is its txStatus call. -/

def c5chain : Chain :=
  { finalHeight := none, blockAt := fun _ => none, chunkAt := fun _ => none,
    lookupTx := fun rid =>
      if rid = "A" then some "h" else if rid = "B" then some "h" else some rid,
    txLogs := fun _ => some [], now := 0 }

def midsFrom (s n : Nat) : List Receipt := (List.range n).map (fun i => midReceipt (s + i))

def midsIds (j : Nat) : List String := "h" :: (List.range j).map (fun i => tstr (i + 1))

def receipts5 : List Receipt := recA :: (midsFrom 1 9999 ++ [midReceipt 10000, recB])

/-- The dedup set right after the eviction triggered by the 10000th mid
receipt: the most recent 5000 entries, with "h" evicted. -/

def evictedIds : List String := (midsIds 9999 ++ [tstr 10000]).drop 5001

/-! ## Claim theorems and supporting lemmas -/

/-- C1: for every subscription with initialized state whose isProcessing
flag is true, pollForEvents returns zero counts, performs no chain calls,
and leaves the cursor, flag and dedup set unchanged. -/

theorem pollForEvents_busy_is_noop (c : Chain) (sub : Subscription) (st : PState)
    (h : st.isProcessing = true) :
    pollForEvents c sub st = { result := .ok (0, 0), state := st, trace := [] } := by
  unfold pollForEvents
  simp [h]

/-- Witness for C1 at a concrete chain, subscription and busy state. -/

theorem pollForEvents_busy_is_noop_witness :
    pollForEvents chainA subA busyState = { result := .ok (0, 0), state := busyState, trace := [] } :=
  pollForEvents_busy_is_noop chainA subA busyState rfl

/-- C8: when the shared auth manager has no account at the moment an
event:found notification arrives, the handler bumps only the detected
counter, stamps lastEventAt and emits event:detected followed by
stats:updated; processEvent is never invoked, no processed/failed event
is emitted, and the processing counters are unchanged. -/

theorem handleEventFound_no_account_drops_event (procOutcome : Except String ProcessingResult)
    (s : WatcherStats) (sub : SubRec) (now : Nat) :
    handleEventFound none procOutcome s sub now =
      ({ s with totalEventsDetected := s.totalEventsDetected + 1 },
       { sub with lastEventAt := some now },
       [.emitDetected, .emitStatsUpdated]) ∧
    WatcherAction.callProcessEvent ∉ (handleEventFound none procOutcome s sub now).2.2 ∧
    WatcherAction.emitProcessed ∉ (handleEventFound none procOutcome s sub now).2.2 ∧
    WatcherAction.emitFailed ∉ (handleEventFound none procOutcome s sub now).2.2 ∧
    (handleEventFound none procOutcome s sub now).1.totalEventsProcessed = s.totalEventsProcessed ∧
    (handleEventFound none procOutcome s sub now).1.totalEventsSuccessful = s.totalEventsSuccessful ∧
    (handleEventFound none procOutcome s sub now).1.totalEventsFailed = s.totalEventsFailed := by
  refine ⟨rfl, ?_, ?_, ?_, rfl, rfl, rfl⟩ <;> simp [handleEventFound]

/-- C9 counterexample: for EVENT_JSON with data [null] — valid JSON, a
matching event name, a non-empty data array whose first element has no
request_id field — the source evaluates null.request_id, which throws a
TypeError caught at block-poller.ts:418-421, so no AgentEvent is
returned; the claim as stated promises one with requestId undefined. -/
theorem parseEventLog_null_payload_counterexample :
    parseEventLog lineNull "X" "alice" 3 = none ∧
    Json.parse (String.mk (lineNull.data.drop 11)) =
      some (.obj [("event", .str "X"), ("data", .arr [.null])]) ∧
    Json.getField .null "request_id" = none :=
  ⟨rfl, rfl, rfl⟩

/-- C9 (amended): a sentinel-prefixed log line with valid JSON, a
matching event name and a non-empty data array whose first element has no
request_id field yields an AgentEvent with requestId undefined, provided
that first element is not JSON null; when it is null, reading
null.request_id throws a TypeError that the surrounding try catches, and
no event is returned. -/
theorem parseEventLog_missing_request_id (log eventName signerId : String) (now : Nat)
    (j d0 : Json) (rest : List Json)
    (hpre : log.data.take 11 = ("EVENT_JSON:").data)
    (hparse : Json.parse (String.mk (log.data.drop 11)) = some j)
    (hev : j.getField "event" = some (.str eventName))
    (hdata : j.getField "data" = some (.arr (d0 :: rest)))
    (hrid : d0.getField "request_id" = none) :
    (¬ d0 = Json.null →
      parseEventLog log eventName signerId now =
        some { eventType := eventName, requestId := none, payload := d0,
               sender := signerId, timestamp := now }) ∧
    (d0 = Json.null → parseEventLog log eventName signerId now = none) := by
  constructor
  · intro hnn
    unfold parseEventLog
    rw [if_pos hpre, hparse]
    simp only [hev, hdata, if_true, eq_self_iff_true]
    cases d0 with
    | null => exact absurd rfl hnn
    | bool b => simp only [Json.getFieldOrThrow, hrid]
    | num raw => simp only [Json.getFieldOrThrow, hrid]
    | str s => simp only [Json.getFieldOrThrow, hrid]
    | arr elems => simp only [Json.getFieldOrThrow, hrid]
    | obj fields => simp only [Json.getFieldOrThrow, hrid]
  · intro hnull
    subst hnull
    unfold parseEventLog
    rw [if_pos hpre, hparse]
    simp only [hev, hdata, if_true, eq_self_iff_true, Json.getFieldOrThrow]

/-- Witness for C9 (amended): a concrete object payload lacking
request_id yields the event with requestId undefined, and the concrete
null payload yields no event. -/
theorem parseEventLog_missing_request_id_witness :
    (parseEventLog logNoRid "X" "alice" 3 =
      some { eventType := "X", requestId := none, payload := .obj [("foo", .num "1")],
             sender := "alice", timestamp := 3 }) ∧
    parseEventLog lineNull "X" "alice" 3 = none :=
  ⟨(parseEventLog_missing_request_id logNoRid "X" "alice" 3
      (.obj [("event", .str "X"), ("data", .arr [.obj [("foo", .num "1")]])])
      (.obj [("foo", .num "1")]) [] rfl rfl rfl rfl rfl).1
      (fun h => Json.noConfusion h),
   (parseEventLog_missing_request_id lineNull "X" "alice" 3
      (.obj [("event", .str "X"), ("data", .arr [.null])])
      .null [] rfl rfl rfl rfl rfl).2 rfl⟩

/-- C3: the concrete matching line yields exactly one AgentEvent with
requestId "r1" and the data array's first element as payload; any
sentinel-prefixed line whose event field is not the subscription's
eventName yields none, and any sentinel-prefixed line whose remainder is
not valid JSON yields none (the parser models the caught SyntaxError, so
nothing is thrown). -/

theorem parseEventLog_match_and_reject (log eventName signerId : String) (now : Nat) (j : Json) :
    (parseEventLog eventLineX "X" signerId now =
      some { eventType := "X", requestId := some (.str "r1"),
             payload := .obj [("request_id", .str "r1")], sender := signerId, timestamp := now }) ∧
    (log.data.take 11 = ("EVENT_JSON:").data →
      Json.parse (String.mk (log.data.drop 11)) = some j →
      ¬ j.getField "event" = some (.str eventName) →
      parseEventLog log eventName signerId now = none) ∧
    (log.data.take 11 = ("EVENT_JSON:").data →
      Json.parse (String.mk (log.data.drop 11)) = none →
      parseEventLog log eventName signerId now = none) := by
  refine ⟨rfl, ?_, ?_⟩
  · intro hpre hparse hev
    unfold parseEventLog
    rw [if_pos hpre, hparse]
    dsimp only
    split
    · rename_i ev hd tl ha hb
      rw [if_neg]
      intro he
      exact hev (by rw [ha, he])
    · rfl
  · intro hpre hparse
    unfold parseEventLog
    rw [if_pos hpre, hparse]

/-- Witness for C3: the matching line parses to the event, the event-"Y"
line yields none for a subscription watching "X", and the malformed line
yields none. -/

theorem parseEventLog_match_and_reject_witness :
    (parseEventLog eventLineX "X" "alice" 7 =
      some { eventType := "X", requestId := some (.str "r1"),
             payload := .obj [("request_id", .str "r1")], sender := "alice", timestamp := 7 }) ∧
    parseEventLog lineY "X" "alice" 7 = none ∧
    parseEventLog lineBad "X" "alice" 7 = none := by
  refine ⟨(parseEventLog_match_and_reject lineY "X" "alice" 7 Json.null).1, ?_, ?_⟩
  · exact (parseEventLog_match_and_reject lineY "X" "alice" 7
      (.obj [("event", .str "Y"), ("data", .arr [.obj [("request_id", .str "r1")]])])).2.1
      rfl rfl (by
        intro h
        have h1 := Option.some.inj h
        injection h1 with h2
        exact absurd h2 (by decide))
  · exact (parseEventLog_match_and_reject lineBad "X" "alice" 7 Json.null).2.2 rfl rfl

/-- C4: processEvent is a total function — every exception from sampling,
response validation or submission is caught and converted into a failure
ProcessingResult carrying the error message and the event's requestId —
and on every call the running counters are bumped exactly once. -/

theorem processEvent_total_and_counts (env : SamplingEnv) (accountSet : Bool)
    (event : AgentEvent) (subscription : Subscription) (stats : ProcStats) :
    (processEvent env accountSet event subscription stats).2.totalProcessed =
      stats.totalProcessed + 1 ∧
    (processEvent env accountSet event subscription stats).2.totalProcessingTime =
      stats.totalProcessingTime +
        (processEvent env accountSet event subscription stats).1.processingTime ∧
    ((processEvent env accountSet event subscription stats).1.success = true →
      (processEvent env accountSet event subscription stats).2.successful = stats.successful + 1 ∧
      (processEvent env accountSet event subscription stats).2.failed = stats.failed) ∧
    ((processEvent env accountSet event subscription stats).1.success = false →
      (processEvent env accountSet event subscription stats).2.failed = stats.failed + 1 ∧
      (processEvent env accountSet event subscription stats).2.successful = stats.successful ∧
      ∃ msg, (processEvent env accountSet event subscription stats).1.error = some msg) ∧
    (processEvent env accountSet event subscription stats).1.requestId = event.requestId ∧
    (processEvent env accountSet event subscription stats).1.processingTime = env.elapsedMs := by
  unfold processEvent
  cases hs : requestMCPSampling env with
  | error e => simp [updateStats]
  | ok resp =>
    dsimp only
    split
    · simp [updateStats]
    · cases hc : sendBlockchainResponse env accountSet with
      | error e2 => simp [updateStats]
      | ok tx => simp [updateStats]

/-- Witness for C4 on a successful concrete run. -/

theorem processEvent_total_and_counts_witness :
    (processEvent envOkS true evW subA stats0).2.totalProcessed = 0 + 1 ∧
    (processEvent envOkS true evW subA stats0).2.successful = 0 + 1 ∧
    (processEvent envOkS true evW subA stats0).1.requestId = evW.requestId :=
  ⟨(processEvent_total_and_counts envOkS true evW subA stats0).1,
   ((processEvent_total_and_counts envOkS true evW subA stats0).2.2.1 rfl).1,
   (processEvent_total_and_counts envOkS true evW subA stats0).2.2.2.2.1⟩

/-! ## Poller state lemmas (cursor and flag preservation) -/

theorem extract_preserves (c : Chain) (r : Receipt) (sub : Subscription) (st : PState) :
    (extractEventsFromReceipt c r sub st).2.1.lastBlockHeight = st.lastBlockHeight ∧
    (extractEventsFromReceipt c r sub st).2.1.isProcessing = st.isProcessing := by
  unfold extractEventsFromReceipt
  rcases c.lookupTx r.receipt_id with _ | tx
  · exact ⟨rfl, rfl⟩
  · dsimp only
    split
    · exact ⟨rfl, rfl⟩
    · split
      · exact ⟨rfl, rfl⟩
      · rcases c.txLogs tx with _ | outcomes <;> exact ⟨rfl, rfl⟩

theorem processReceipts_preserves (c : Chain) (sub : Subscription) (receipts : List Receipt) :
    ∀ st : PState,
      (processReceipts c receipts sub st).2.1.lastBlockHeight = st.lastBlockHeight ∧
      (processReceipts c receipts sub st).2.1.isProcessing = st.isProcessing := by
  induction receipts with
  | nil => exact fun st => ⟨rfl, rfl⟩
  | cons r rest ih =>
    intro st
    simp only [processReceipts]
    exact ⟨(ih _).1.trans (extract_preserves c r sub st).1,
           (ih _).2.trans (extract_preserves c r sub st).2⟩

theorem processBlock_preserves (c : Chain) (h : Nat) (sub : Subscription) (st : PState) :
    (processBlock c h sub st).2.1.lastBlockHeight = st.lastBlockHeight ∧
    (processBlock c h sub st).2.1.isProcessing = st.isProcessing := by
  unfold processBlock
  rcases c.blockAt h with _ | b
  · exact ⟨rfl, rfl⟩
  · dsimp only
    split
    · exact ⟨rfl, rfl⟩
    · exact processReceipts_preserves c sub _ st

theorem processHeights_preserves (c : Chain) (sub : Subscription) (heights : List Nat) :
    ∀ st : PState,
      (processHeights c sub heights st).2.1.lastBlockHeight = st.lastBlockHeight ∧
      (processHeights c sub heights st).2.1.isProcessing = st.isProcessing := by
  induction heights with
  | nil => exact fun st => ⟨rfl, rfl⟩
  | cons h rest ih =>
    intro st
    simp only [processHeights]
    exact ⟨(ih _).1.trans (processBlock_preserves c h sub st).1,
           (ih _).2.trans (processBlock_preserves c h sub st).2⟩

theorem runBatchesAux_state (c : Chain) (sub : Subscription) :
    ∀ (fuel bh cur : Nat) (st : PState),
      (runBatchesAux c sub fuel bh cur st).2.2.1.isProcessing = st.isProcessing ∧
      (st.lastBlockHeight < bh →
        st.lastBlockHeight ≤ (runBatchesAux c sub fuel bh cur st).2.2.1.lastBlockHeight) := by
  intro fuel
  induction fuel with
  | zero => exact fun bh cur st => ⟨rfl, fun _ => le_refl _⟩
  | succ fuel ih =>
    intro bh cur st
    simp only [runBatchesAux, BATCH_SIZE]
    by_cases hle : bh ≤ cur
    · simp only [hle, if_true]
      refine ⟨?_, ?_⟩
      · exact (ih (bh + 5) cur _).1.trans (processHeights_preserves c sub _ st).2
      · intro hlt
        have hend1 : bh ≤ min (bh + 5 - 1) cur := le_min (by omega) hle
        have hend2 : min (bh + 5 - 1) cur < bh + 5 := lt_of_le_of_lt (min_le_left _ _) (by omega)
        have hrec := (ih (bh + 5) cur
          { (processHeights c sub (List.range' bh (min (bh + 5 - 1) cur + 1 - bh)) st).2.1 with
            lastBlockHeight := min (bh + 5 - 1) cur }).2 hend2
        exact le_trans (le_trans (le_of_lt hlt) hend1) hrec
    · rw [if_neg hle]
      exact ⟨rfl, fun _ => le_refl _⟩

/-- The batch loop degenerates to a single one-block batch when the range
is [H, H]. -/

theorem runBatches_single (c : Chain) (sub : Subscription) (st : PState) (H : Nat) :
    runBatches c sub H H st =
      (1, (processHeights c sub [H] st).1,
       { (processHeights c sub [H] st).2.1 with lastBlockHeight := H },
       (processHeights c sub [H] st).2.2) := by
  unfold runBatches
  rw [(show H + 1 - H = 1 from by omega)]
  simp only [runBatchesAux, BATCH_SIZE]
  rw [if_pos (le_refl H)]
  rw [(show min (H + 5 - 1) H = H from by omega)]
  rw [(show H + 1 - H = 1 from by omega), List.range'_one]
  have h0 : H - H + 1 = 1 := by omega
  simp [h0]

/-- C2 (amended): the first poll of a fresh subscription anchors the
cursor to currentFinalHeight − 1 and then scans exactly the current final
block, so it returns blocksProcessed = 1 (not 0) and leaves the cursor at
the current height; it is the next poll, with the cursor already at the
unchanged current height, that processes zero blocks. -/

theorem pollForEvents_first_poll (c : Chain) (sub : Subscription) (st : PState) (H : Nat)
    (hH : c.finalHeight = some H) (h1 : 1 ≤ H) :
    (st.lastBlockHeight = 0 → st.isProcessing = false →
      (getCurrentBlock c st).2.1.lastBlockHeight = H - 1 ∧
      (∃ k, (pollForEvents c sub st).result = .ok (1, k)) ∧
      (pollForEvents c sub st).state.lastBlockHeight = H) ∧
    (st.lastBlockHeight = H → st.isProcessing = false →
      (pollForEvents c sub st).result = .ok (0, 0) ∧ (pollForEvents c sub st).state = st) := by
  constructor
  · intro h0 hproc
    refine ⟨?_, ?_⟩
    · unfold getCurrentBlock
      rw [hH]
      simp [h0]
    · unfold pollForEvents
      simp only [hproc, Bool.false_eq_true, if_false]
      unfold getCurrentBlock
      rw [hH]
      dsimp only
      rw [if_pos (show ({ st with isProcessing := true } : PState).lastBlockHeight = 0 from h0)]
      dsimp only
      rw [(show H - 1 + 1 = H from by omega)]
      rw [if_neg (lt_irrefl H)]
      rw [runBatches_single]
      exact ⟨⟨_, rfl⟩, rfl⟩
  · intro hcur hproc
    unfold pollForEvents
    simp only [hproc, Bool.false_eq_true, if_false]
    unfold getCurrentBlock
    rw [hH]
    dsimp only
    rw [if_neg (show ¬ ({ st with isProcessing := true } : PState).lastBlockHeight = 0 by
      simpa [hcur] using by omega)]
    dsimp only
    rw [if_pos (show H < ({ st with isProcessing := true } : PState).lastBlockHeight + 1 by
      simp [hcur])]
    refine ⟨rfl, ?_⟩
    cases st with
    | mk lbh pr ids => cases hproc; rfl

/-- Witness for C2 (amended) at the concrete chain of height 10. -/

theorem pollForEvents_first_poll_witness :
    (getCurrentBlock chainA freshState).2.1.lastBlockHeight = 9 ∧
    (∃ k, (pollForEvents chainA subA freshState).result = .ok (1, k)) ∧
    (pollForEvents chainA subA freshState).state.lastBlockHeight = 10 ∧
    (pollForEvents chainA subA stAt10).result = .ok (0, 0) :=
  let h := pollForEvents_first_poll chainA subA freshState 10 rfl (by omega)
  let h2 := pollForEvents_first_poll chainA subA stAt10 10 rfl (by omega)
  ⟨(h.1 rfl rfl).1, (h.1 rfl rfl).2.1, (h.1 rfl rfl).2.2, (h2.2 rfl rfl).1⟩

/-- C2 counterexample: on a fresh subscription over a chain at final
height 10 with no new block arriving during the poll, the first
pollForEvents call anchors the cursor to 9 but returns blocksProcessed =
1 (it scans block 10 itself), not 0 as the claim states. -/

theorem pollForEvents_first_poll_counterexample :
    (getCurrentBlock chainA freshState).2.1.lastBlockHeight = 9 ∧
    (pollForEvents chainA subA freshState).result = .ok (1, 0) ∧
    (1 : Nat) ≠ 0 :=
  ⟨rfl, rfl, by omega⟩

/-- The cursor after the batch loop is at least the cursor before it,
whenever the loop starts above the current cursor. -/

theorem runBatches_cursor (c : Chain) (sub : Subscription) (bh cur : Nat) (st : PState)
    (h : st.lastBlockHeight < bh) :
    st.lastBlockHeight ≤ (runBatches c sub bh cur st).2.2.1.lastBlockHeight := by
  unfold runBatches
  exact (runBatchesAux_state c sub _ bh cur st).2 h

/-- C6: the per-subscription cursor lastBlockHeight never decreases
across pollForEvents calls (the chain is assumed to report positive final
heights, as NEAR does, so the first-poll anchor currentHeight − 1 is
well-defined). -/

theorem pollForEvents_cursor_monotone (c : Chain) (sub : Subscription) (st : PState)
    (_hpos : ∀ H, c.finalHeight = some H → 1 ≤ H) :
    st.lastBlockHeight ≤ (pollForEvents c sub st).state.lastBlockHeight := by
  unfold pollForEvents
  by_cases hb : st.isProcessing
  · simp [hb]
  · simp only [hb, Bool.false_eq_true, if_false]
    cases hH : c.finalHeight with
    | none => unfold getCurrentBlock; rw [hH]
    | some H =>
      unfold getCurrentBlock
      rw [hH]
      dsimp only
      by_cases h0 : st.lastBlockHeight = 0
      · rw [if_pos (show ({ st with isProcessing := true } : PState).lastBlockHeight = 0 from h0)]
        dsimp only
        by_cases hlt : H < H - 1 + 1
        · rw [if_pos hlt]
          simp [h0]
        · rw [if_neg hlt]
          have hc := runBatches_cursor c sub (H - 1 + 1) H
            { lastBlockHeight := H - 1, isProcessing := true,
              processedTransactionIds := st.processedTransactionIds }
            (Nat.lt_succ_self (H - 1))
          exact le_trans (show st.lastBlockHeight ≤ H - 1 by omega) hc
      · rw [if_neg (show ¬ ({ st with isProcessing := true } : PState).lastBlockHeight = 0 from h0)]
        dsimp only
        by_cases hlt : H < st.lastBlockHeight + 1
        · rw [if_pos hlt]
        · rw [if_neg hlt]
          exact runBatches_cursor c sub (st.lastBlockHeight + 1) H
            { lastBlockHeight := st.lastBlockHeight, isProcessing := true,
              processedTransactionIds := st.processedTransactionIds }
            (Nat.lt_succ_self st.lastBlockHeight)

/-- Witness for C6 at the concrete chain of height 10. -/

theorem pollForEvents_cursor_monotone_witness :
    freshState.lastBlockHeight ≤ (pollForEvents chainA subA freshState).state.lastBlockHeight :=
  pollForEvents_cursor_monotone chainA subA freshState
    (fun H h => by simp [chainA] at h; omega)

/-- C7 counterexample: an internal error while stopping an existing
subscription (the cron handle's stop throws) makes stopWatching return
false, so the tool prints the same "no active subscription" reply as for
a pair that was never watched — two of the three outcomes share a reply. -/

theorem stopTool_conflates_error_and_notFound :
    (stopWatchingToolExecute cronFailEnv wsOne "c" "X").1 = .notFound ∧
    (stopWatchingToolExecute cronOkEnv wsEmpty "c" "X").1 = .notFound ∧
    getSubscription wsOne.registry "c" "X" = some subX ∧
    getSubscription wsEmpty.registry "c" "X" = none :=
  ⟨rfl, rfl, rfl, rfl⟩

/-- C7 (amended): the tool's reply distinguishes a successful stop from
the other outcomes, but "not currently watching" and "internal error
stopping an existing subscription" produce the same not-found reply:
EventWatcher.stopWatching catches internal errors and returns false, so
the tool's distinct failure reply is never produced by a stop failure. -/

theorem stopTool_reply (env : CronEnv) (ws : WatcherState) (cid en : String) :
    ((stopWatchingToolExecute env ws cid en).1 = .stoppedOk ∨
     (stopWatchingToolExecute env ws cid en).1 = .notFound) ∧
    (getSubscription ws.registry cid en = none →
      (stopWatchingToolExecute env ws cid en).1 = .notFound) ∧
    (∀ sub, getSubscription ws.registry cid en = some sub →
      (sub.hasCron && env.stopFails sub.id) = false →
      (stopWatchingToolExecute env ws cid en).1 = .stoppedOk) ∧
    (∀ sub, getSubscription ws.registry cid en = some sub →
      (sub.hasCron && env.stopFails sub.id) = true →
      (stopWatchingToolExecute env ws cid en).1 = .notFound) := by
  unfold stopWatchingToolExecute stopWatching unsubscribe
  cases hgs : getSubscription ws.registry cid en with
  | none =>
    exact ⟨Or.inr rfl, fun _ => rfl,
           fun sub hsub => absurd hsub (by simp),
           fun sub hsub => absurd hsub (by simp)⟩
  | some sub =>
    dsimp only
    by_cases hf : (sub.hasCron && env.stopFails sub.id) = true
    · rw [if_pos hf]
      refine ⟨Or.inr rfl, fun h => absurd h (by simp), ?_, ?_⟩
      · intro s hs hfalse
        cases Option.some.inj hs
        rw [hf] at hfalse
        exact absurd hfalse (by simp)
      · intro _ _ _
        rfl
    · rw [if_neg hf]
      refine ⟨Or.inl rfl, fun h => absurd h (by simp), ?_, ?_⟩
      · intro _ _ _
        rfl
      · intro s hs htrue
        cases Option.some.inj hs
        exact absurd htrue hf

/-- Witness for C7 (amended): the not-found reply on the internal-error
case and the stopped reply on the clean case. -/

theorem stopTool_reply_witness :
    (stopWatchingToolExecute cronFailEnv wsOne "c" "X").1 = .notFound ∧
    (stopWatchingToolExecute cronOkEnv wsOne "c" "X").1 = .stoppedOk ∧
    (stopWatchingToolExecute cronOkEnv wsEmpty "c" "X").1 = .notFound :=
  ⟨(stopTool_reply cronFailEnv wsOne "c" "X").2.2.2 subX rfl rfl,
   (stopTool_reply cronOkEnv wsOne "c" "X").2.2.1 subX rfl rfl,
   (stopTool_reply cronOkEnv wsEmpty "c" "X").2.1 rfl⟩

/-! ## C10: stopAllWatching leaves paused subscriptions alone -/

/-- One stopWatching call on a different key leaves a registry entry and
its listener state untouched. -/

theorem stopWatching_frame (env : CronEnv) (ws : WatcherState) (cid en : String) (p : SubRec)
    (hp : p ∈ ws.registry) (hkey : p.id ≠ subKey cid en) :
    p ∈ (stopWatching env ws cid en).2.registry ∧
    (p.id ∈ ws.listenerStates → p.id ∈ (stopWatching env ws cid en).2.listenerStates) := by
  unfold stopWatching unsubscribe
  cases hgs : getSubscription ws.registry cid en with
  | none => exact ⟨hp, fun h => h⟩
  | some sub =>
    have hfind : List.find? (fun r => r.id == subKey cid en) ws.registry = some sub := hgs
    have hpred := List.find?_some hfind
    have hsubid : sub.id = subKey cid en := beq_iff_eq.mp hpred
    have hpid : p.id ≠ sub.id := fun h => hkey (h.trans hsubid)
    dsimp only
    by_cases hf : (sub.hasCron && env.stopFails sub.id) = true
    · rw [if_pos hf]
      exact ⟨hp, fun h => (List.mem_erase_of_ne hpid).mpr h⟩
    · rw [if_neg hf]
      refine ⟨List.mem_filter.mpr ⟨hp, bne_iff_ne.mpr hkey⟩,
              fun h => (List.mem_erase_of_ne hpid).mpr h⟩

/-- C10: stopAllWatching iterates only over active subscriptions, so a
paused subscription's registry entry (hence its cron handle) and its
per-subscription listener state survive unchanged.  The registry is
well-formed: entries are stored under their derived key, and keys are
unique. -/

theorem stopAllWatching_preserves_paused (env : CronEnv) (ws : WatcherState) (p : SubRec)
    (hwf : ∀ r ∈ ws.registry, r.id = subKey r.contractId r.eventName)
    (hnd : (ws.registry.map (fun r => r.id)).Nodup)
    (hp : p ∈ ws.registry) (hpa : p.isActive = false) :
    p ∈ (stopAllWatching env ws).registry ∧
    (p.id ∈ ws.listenerStates → p.id ∈ (stopAllWatching env ws).listenerStates) := by
  have hkeys : ∀ a ∈ getActiveSubscriptions ws.registry,
      p.id ≠ subKey a.contractId a.eventName := by
    intro a ha hcontra
    have hmem := List.mem_filter.mp ha
    have haid : a.id = subKey a.contractId a.eventName := hwf a hmem.1
    have : p = a := List.inj_on_of_nodup_map hnd hp hmem.1 (hcontra.trans haid.symm)
    rw [this] at hpa
    rw [hpa] at hmem
    exact absurd hmem.2 (by simp)
  unfold stopAllWatching
  have gen : ∀ (l : List SubRec) (w : WatcherState), p ∈ w.registry →
      (∀ a ∈ l, p.id ≠ subKey a.contractId a.eventName) →
      p ∈ (l.foldl (fun acc sub => (stopWatching env acc sub.contractId sub.eventName).2) w).registry ∧
      (p.id ∈ w.listenerStates →
        p.id ∈ (l.foldl (fun acc sub => (stopWatching env acc sub.contractId sub.eventName).2) w).listenerStates) := by
    intro l
    induction l with
    | nil => exact fun w hw _ => ⟨hw, fun h => h⟩
    | cons a rest ih =>
      intro w hw hks
      simp only [List.foldl_cons]
      have hstep := stopWatching_frame env w a.contractId a.eventName p hw
        (hks a (List.mem_cons_self a rest))
      have hrest := ih _ hstep.1 (fun b hb => hks b (List.mem_cons_of_mem a hb))
      exact ⟨hrest.1, fun h => hrest.2 (hstep.2 h)⟩
  exact gen (getActiveSubscriptions ws.registry) ws hp hkeys

/-- Witness for C10: in a registry with one active and one paused
subscription, stopAllWatching keeps the paused entry and its listener
state. -/

theorem stopAllWatching_preserves_paused_witness :
    pausedP ∈ (stopAllWatching cronOkEnv wsMix).registry ∧
    ("b:Y" ∈ (stopAllWatching cronOkEnv wsMix).listenerStates) :=
  let h := stopAllWatching_preserves_paused cronOkEnv wsMix pausedP
    (by
      intro r hr
      simp only [wsMix, List.mem_cons, List.not_mem_nil, or_false] at hr
      rcases hr with h | h <;> subst h <;> rfl)
    (by decide)
    (by simp [wsMix])
    rfl
  ⟨h.1, h.2 (by decide)⟩

theorem chargeTx_le_one (h : String) (ids : List String) : chargeTx h ids ≤ 1 := by
  unfold chargeTx
  split <;> omega

theorem chargeTx_append (h tx : String) (l : List String) (hmem : tx ∉ l) :
    chargeTx h (l ++ [tx]) = chargeTx h l + (if tx = h then 1 else 0) := by
  by_cases htx : tx = h
  · subst htx
    simp [chargeTx, List.mem_append, hmem]
  · simp [chargeTx, List.mem_append, (show ¬h = tx from fun e => htx e.symm), htx]

theorem countTx_append (h : String) (l1 l2 : List ChainCall) :
    countTx h (l1 ++ l2) = countTx h l1 + countTx h l2 := by
  induction l1 with
  | nil => simp [countTx]
  | cons x t ih =>
    cases x <;> simp [countTx, ih]
    omega

/-- One extractEventsFromReceipt call below the eviction high-water mark:
the hash's charge in the dedup set grows by exactly the number of
txStatus scans of that hash in the call's trace, and the set grows by at
most one element. -/

theorem extract_charge (c : Chain) (r : Receipt) (sub : Subscription) (st : PState)
    (h : String) (hlen : st.processedTransactionIds.length ≤ 9999) :
    chargeTx h (extractEventsFromReceipt c r sub st).2.1.processedTransactionIds =
      chargeTx h st.processedTransactionIds +
        countTx h (extractEventsFromReceipt c r sub st).2.2 ∧
    (extractEventsFromReceipt c r sub st).2.1.processedTransactionIds.length ≤
      st.processedTransactionIds.length + 1 := by
  unfold extractEventsFromReceipt
  rcases c.lookupTx r.receipt_id with _ | tx
  · simp [countTx]
  · dsimp only
    split
    · simp [countTx]
    · split
      · simp [countTx]
      · rename_i hne hmem
        have hnoev : ¬ ((st.processedTransactionIds ++ [tx]).length > 10000) := by
          simp only [List.length_append, List.length_cons, List.length_nil]
          omega
        rw [if_neg hnoev]
        have hch := chargeTx_append h tx st.processedTransactionIds hmem
        rcases c.txLogs tx with _ | outs <;>
          refine ⟨?_, by simp⟩ <;>
          simpa [countTx] using hch

/-- The charge invariant over a receipt sequence whose length keeps the
dedup set below the eviction high-water mark. -/

theorem processReceipts_charge (c : Chain) (sub : Subscription) (receipts : List Receipt) :
    ∀ (st : PState) (h : String),
      st.processedTransactionIds.length + receipts.length ≤ 10000 →
      chargeTx h (processReceipts c receipts sub st).2.1.processedTransactionIds =
        chargeTx h st.processedTransactionIds +
          countTx h (processReceipts c receipts sub st).2.2 ∧
      (processReceipts c receipts sub st).2.1.processedTransactionIds.length ≤
        st.processedTransactionIds.length + receipts.length := by
  induction receipts with
  | nil => intro st h _; simp [processReceipts, countTx]
  | cons r rest ih =>
    intro st h hlen
    simp only [processReceipts, List.length_cons] at hlen ⊢
    have hlen1 : st.processedTransactionIds.length ≤ 9999 := by omega
    have hstep := extract_charge c r sub st h hlen1
    have hrec := ih (extractEventsFromReceipt c r sub st).2.1 h (by omega)
    refine ⟨?_, by omega⟩
    rw [countTx_append, hrec.1, hstep.1]
    omega

/-- C5 (amended): provided the dedup set never crosses its high-water
mark (at most 10000 receipts in the subscription's lifetime, so no
eviction occurs), every transaction hash is scanned at most once; and a
receipt whose lookup resolves to a hash already in
processedTransactionIds yields no events and no txStatus scan. -/

theorem dedup_scan_at_most_once (c : Chain) (sub : Subscription) (receipts : List Receipt)
    (hsh : String) (r : Receipt) (st : PState)
    (hlen : receipts.length ≤ 10000)
    (hres : c.lookupTx r.receipt_id = some hsh) (hne : ¬ hsh = "")
    (hmem : hsh ∈ st.processedTransactionIds) :
    countTx hsh (processReceipts c receipts sub freshState).2.2 ≤ 1 ∧
    (extractEventsFromReceipt c r sub st).1 = [] ∧
    countTx hsh (extractEventsFromReceipt c r sub st).2.2 = 0 := by
  refine ⟨?_, ?_, ?_⟩
  · have hch := (processReceipts_charge c sub receipts freshState hsh
      (by simpa [freshState] using hlen)).1
    have h0 : chargeTx hsh freshState.processedTransactionIds = 0 := by
      simp [chargeTx, freshState]
    have hle := chargeTx_le_one hsh
      (processReceipts c receipts sub freshState).2.1.processedTransactionIds
    omega
  · unfold extractEventsFromReceipt
    rw [hres]
    simp [hne, hmem]
  · unfold extractEventsFromReceipt
    rw [hres]
    simp [hne, hmem, countTx]

/-- Witness for C5 (amended): two receipts resolving to the same hash are
scanned once in total, and a receipt resolving to an already-marked hash
yields nothing. -/

theorem dedup_scan_at_most_once_witness :
    countTx "h" (processReceipts chainDup [rSame1, rSame2] subA freshState).2.2 ≤ 1 ∧
    (extractEventsFromReceipt chainDup rSame2 subA
      { lastBlockHeight := 0, isProcessing := false, processedTransactionIds := ["h"] }).1 = [] :=
  let h := dedup_scan_at_most_once chainDup subA [rSame1, rSame2] "h" rSame2
    { lastBlockHeight := 0, isProcessing := false, processedTransactionIds := ["h"] }
    (by decide) rfl (by decide) (by decide)
  ⟨h.1, h.2.1⟩

theorem tstr_length (i : Nat) : (tstr i).length = i := by
  simp [tstr, String.length]

theorem tstr_inj {i j : Nat} (h : tstr i = tstr j) : i = j := by
  have := congrArg String.length h
  rwa [tstr_length, tstr_length] at this

theorem tstr_ne_single (i : Nat) (w : String) (hw : w.length = 1) (h1 : ¬ tstr 1 = w) :
    ¬ tstr i = w := by
  intro h
  have hl := congrArg String.length h
  rw [tstr_length, hw] at hl
  subst hl
  exact h1 h

theorem tstr_ne_empty (i : Nat) (hi : 1 ≤ i) : ¬ tstr i = "" := by
  intro h
  have hl := congrArg String.length h
  rw [tstr_length] at hl
  simp at hl
  omega

theorem c5_lookup_mid (i : Nat) : c5chain.lookupTx (tstr i) = some (tstr i) := by
  simp [c5chain, tstr_ne_single i "A" rfl (by decide), tstr_ne_single i "B" rfl (by decide)]

theorem midsIds_length (j : Nat) : (midsIds j).length = j + 1 := by
  simp [midsIds]

theorem midsIds_succ (j : Nat) : midsIds (j + 1) = midsIds j ++ [tstr (j + 1)] := by
  simp [midsIds, List.range_succ]

theorem tstr_not_mem_midsIds (m j : Nat) (hm : j < m) : ¬ tstr m ∈ midsIds j := by
  intro hmem
  rcases List.mem_cons.mp hmem with h | h
  · exact tstr_ne_single m "h" rfl (by decide) h
  · rcases List.mem_map.mp h with ⟨i, hi, he⟩
    have := tstr_inj he
    have := List.mem_range.mp hi
    omega

theorem midsFrom_succ (s n : Nat) : midsFrom s (n + 1) = midReceipt s :: midsFrom (s + 1) n := by
  simp only [midsFrom, List.range_succ_eq_map, List.map_cons, List.map_map]
  refine congrArg₂ List.cons (by simp) ?_
  apply List.map_congr_left
  intro i _
  simp only [Function.comp]
  congr 1
  omega

/-- One mid receipt below the high-water mark: the dedup set grows by its
own hash and its scan touches only that hash. -/

theorem c5_extract_mid (j : Nat) (lbh : Nat) (pr : Bool) (hj : j ≤ 9998) :
    extractEventsFromReceipt c5chain (midReceipt (j + 1)) subA
      { lastBlockHeight := lbh, isProcessing := pr, processedTransactionIds := midsIds j } =
      ([], { lastBlockHeight := lbh, isProcessing := pr,
             processedTransactionIds := midsIds (j + 1) },
       [.nearblocks (tstr (j + 1)), .txStatus (tstr (j + 1))]) := by
  unfold extractEventsFromReceipt
  rw [show (midReceipt (j + 1)).receipt_id = tstr (j + 1) from rfl]
  rw [c5_lookup_mid (j + 1)]
  dsimp only
  rw [if_neg (tstr_ne_empty (j + 1) (by omega))]
  rw [if_neg (tstr_not_mem_midsIds (j + 1) j (by omega))]
  rw [if_neg (show ¬ (midsIds j ++ [tstr (j + 1)]).length > 10000 by
    simp [midsIds_length]; omega)]
  rw [show c5chain.txLogs (tstr (j + 1)) = some [] from rfl]
  rw [← midsIds_succ]
  rfl

theorem processReceipts_nil (c : Chain) (sub : Subscription) (st : PState) :
    processReceipts c [] sub st = (0, st, []) := rfl

theorem processReceipts_cons (c : Chain) (sub : Subscription) (r : Receipt)
    (rest : List Receipt) (st : PState) :
    processReceipts c (r :: rest) sub st =
      ((extractEventsFromReceipt c r sub st).1.length +
         (processReceipts c rest sub (extractEventsFromReceipt c r sub st).2.1).1,
       (processReceipts c rest sub (extractEventsFromReceipt c r sub st).2.1).2.1,
       (extractEventsFromReceipt c r sub st).2.2 ++
         (processReceipts c rest sub (extractEventsFromReceipt c r sub st).2.1).2.2) := rfl

theorem processReceipts_append (c : Chain) (sub : Subscription) (l1 l2 : List Receipt) :
    ∀ st : PState,
      processReceipts c (l1 ++ l2) sub st =
        ((processReceipts c l1 sub st).1 +
           (processReceipts c l2 sub (processReceipts c l1 sub st).2.1).1,
         (processReceipts c l2 sub (processReceipts c l1 sub st).2.1).2.1,
         (processReceipts c l1 sub st).2.2 ++
           (processReceipts c l2 sub (processReceipts c l1 sub st).2.1).2.2) := by
  induction l1 with
  | nil => intro st; simp [processReceipts]
  | cons r t ih => intro st; simp [processReceipts, ih, List.append_assoc, Nat.add_assoc]

/-- Running the mid receipts from any position below the high-water mark
appends their hashes to the dedup set and never scans "h". -/

theorem c5_mids_run (n : Nat) :
    ∀ (j lbh : Nat) (pr : Bool), j + n ≤ 9999 →
      ∃ tr, processReceipts c5chain (midsFrom (j + 1) n) subA
          { lastBlockHeight := lbh, isProcessing := pr,
            processedTransactionIds := midsIds j } =
          (0, { lastBlockHeight := lbh, isProcessing := pr,
                processedTransactionIds := midsIds (j + n) }, tr) ∧
        countTx "h" tr = 0 := by
  induction n with
  | zero =>
    intro j lbh pr _
    exact ⟨[], by simp [midsFrom, processReceipts], by simp [countTx]⟩
  | succ n ih =>
    intro j lbh pr h
    rw [midsFrom_succ]
    obtain ⟨tr, htr, hcnt⟩ := ih (j + 1) lbh pr (by omega)
    refine ⟨[.nearblocks (tstr (j + 1)), .txStatus (tstr (j + 1))] ++ tr, ?_, ?_⟩
    · simp only [processReceipts]
      rw [c5_extract_mid j lbh pr (by omega)]
      dsimp only
      rw [show (j + 1) + 1 = j + 1 + 1 from rfl] at htr
      rw [htr]
      rw [show j + 1 + n = j + (n + 1) from by omega]
      rfl
    · rw [countTx_append, hcnt]
      simp [countTx, tstr_ne_single (j + 1) "h" rfl (by decide)]

theorem h_not_mem_evicted : ¬ ("h" : String) ∈ evictedIds := by
  intro hmem
  have he : evictedIds =
      (((List.range 9999).map (fun i => tstr (i + 1))) ++ [tstr 10000]).drop 5000 := by
    simp [evictedIds, midsIds]
  rw [he] at hmem
  have hfull := List.mem_of_mem_drop hmem
  rcases List.mem_append.mp hfull with h1 | h2
  · rcases List.mem_map.mp h1 with ⟨i, _, hi⟩
    exact tstr_ne_single (i + 1) "h" rfl (by decide) hi
  · rcases List.mem_singleton.mp h2 with h3
    exact tstr_ne_single 10000 "h" rfl (by decide) h3.symm

theorem evictedIds_length : evictedIds.length = 5000 := by
  simp [evictedIds, midsIds_length]

/-- The 10000th mid receipt crosses the high-water mark: the set is
truncated to its last 5000 entries, dropping "h". -/

theorem c5_extract_evict :
    extractEventsFromReceipt c5chain (midReceipt 10000) subA
      { lastBlockHeight := 0, isProcessing := false,
        processedTransactionIds := midsIds 9999 } =
      ([], { lastBlockHeight := 0, isProcessing := false,
             processedTransactionIds := evictedIds },
       [.nearblocks (tstr 10000), .txStatus (tstr 10000)]) := by
  unfold extractEventsFromReceipt
  rw [show (midReceipt 10000).receipt_id = tstr 10000 from rfl]
  rw [c5_lookup_mid 10000]
  dsimp only
  rw [if_neg (tstr_ne_empty 10000 (by omega))]
  rw [if_neg (tstr_not_mem_midsIds 10000 9999 (by omega))]
  rw [if_pos (show (midsIds 9999 ++ [tstr 10000]).length > 10000 by
    simp [midsIds_length])]
  rw [show (midsIds 9999 ++ [tstr 10000]).length = 10001 by simp [midsIds_length]]
  rw [show (10001 : Nat) - 5000 = 5001 from by omega]
  rw [show c5chain.txLogs (tstr 10000) = some [] from rfl]
  rfl

/-- Receipt "B" after the eviction: "h" is no longer in the set, so its
transaction is scanned a second time. -/

theorem c5_extract_B :
    extractEventsFromReceipt c5chain recB subA
      { lastBlockHeight := 0, isProcessing := false,
        processedTransactionIds := evictedIds } =
      ([], { lastBlockHeight := 0, isProcessing := false,
             processedTransactionIds := evictedIds ++ ["h"] },
       [.nearblocks "B", .txStatus "h"]) := by
  unfold extractEventsFromReceipt
  rw [show c5chain.lookupTx recB.receipt_id = some "h" from rfl]
  dsimp only
  rw [if_neg (show ¬ ("h" : String) = "" by decide)]
  rw [if_neg h_not_mem_evicted]
  rw [if_neg (show ¬ (evictedIds ++ ["h"]).length > 10000 by
    simp [evictedIds_length])]
  rw [show c5chain.txLogs "h" = some [] from rfl]
  rfl

/-- C5 counterexample: in one subscription lifetime over c5chain, receipts
"A" and "B" both resolve to transaction "h", yet "h" is scanned twice —
the 10000 intervening transactions trigger the eviction that drops "h"
from processedTransactionIds, so the second resolution does not find it
marked.  This falsifies "scanned at most once" as stated. -/

theorem c5_eviction_counterexample :
    countTx "h" (processReceipts c5chain receipts5 subA freshState).2.2 = 2 ∧
    c5chain.lookupTx recA.receipt_id = some "h" ∧
    c5chain.lookupTx recB.receipt_id = some "h" := by
  refine ⟨?_, rfl, rfl⟩
  have hA : extractEventsFromReceipt c5chain recA subA freshState =
      ([], { lastBlockHeight := 0, isProcessing := false,
             processedTransactionIds := midsIds 0 },
       [.nearblocks "A", .txStatus "h"]) := rfl
  obtain ⟨tr, htr, hcnt⟩ := c5_mids_run 9999 0 0 false (by omega)
  show countTx "h" (processReceipts c5chain
    (recA :: (midsFrom 1 9999 ++ [midReceipt 10000, recB])) subA freshState).2.2 = 2
  rw [processReceipts_cons]
  rw [hA]
  dsimp only
  rw [processReceipts_append c5chain subA (midsFrom 1 9999) [midReceipt 10000, recB]]
  rw [show (0 + 1 : Nat) = 1 from rfl] at htr
  rw [htr]
  dsimp only
  rw [processReceipts_cons]
  rw [show (0 + 9999 : Nat) = 9999 from rfl]
  rw [c5_extract_evict]
  dsimp only
  rw [processReceipts_cons]
  rw [c5_extract_B]
  dsimp only
  rw [processReceipts_nil]
  dsimp only
  rw [countTx_append, countTx_append, countTx_append, countTx_append, hcnt]
  decide
